import Mathlib

/-!
Verification development for the `auto_secondbrain` repository's vault
ingestion and analysis pipeline.

The definitions below are a shallow embedding of the Python source:
  * `apps/api/services/vault_service.py`  (class `VaultService`)
  * `apps/workers/tasks/vault_processing.py`  (tasks `process_vault`,
    `extract_vault_files`, `analyze_vault_content`)

Strings are modelled as Lean `String`/`List Char`; Python's `uuid.UUID`
constructor, `str.replace`, `str.strip`, `os.path` helpers and the POSIX
entry-name sanitisation performed by `zipfile.ZipFile.extractall` are
embedded as explicit executable functions.  The relational store is an
association list keyed by the 128-bit UUID value; blob storage is an
association list from storage paths to payloads.
-/

namespace AutoSecondBrain

/-! ## String utilities (embedding Python string / os.path primitives) -/

/-- Python `str.split(sep)` for a single-character separator.
`splitOnChar c "".data = [[]]`, mirroring `"".split(c) == ['']`. -/
def splitOnChar (c : Char) : List Char → List (List Char)
  | [] => [[]]
  | x :: xs =>
    let r := splitOnChar c xs
    if x == c then [] :: r
    else
      match r with
      | h :: t => (x :: h) :: t
      | [] => [[x]]

/-- Split a path string on `/` into components. -/
def splitPath (s : String) : List String :=
  (splitOnChar '/' s.data).map List.asString

/-- Python `s.endswith(pat)`. -/
def strEndsWith (s pat : String) : Bool :=
  pat.data.isSuffixOf s.data

/-- Python `s.startswith(pat)`. -/
def strStartsWith (s pat : String) : Bool :=
  pat.data.isPrefixOf s.data

/-- Python `pat in s` (substring containment). -/
def strContains (s pat : String) : Bool :=
  s.data.tails.any (fun t => pat.data.isPrefixOf t)

/-- Python `s.strip()`: drop whitespace from both ends. -/
def pyStrip (s : String) : String :=
  List.asString (((s.data.dropWhile Char.isWhitespace).reverse.dropWhile Char.isWhitespace).reverse)

/-- Drop characters satisfying `p` from both ends of a character list
(Python `s.strip(chars)`). -/
def stripEnds (p : Char → Bool) (cs : List Char) : List Char :=
  ((cs.dropWhile p).reverse.dropWhile p).reverse

/-- Fuel-indexed worker for `removeOcc`; the fuel starts at the input length,
which bounds the number of recursive steps. -/
def removeOccAux (pat : List Char) : Nat → List Char → List Char
  | _, [] => []
  | 0, cs => cs
  | fuel + 1, x :: xs =>
    if pat.isPrefixOf (x :: xs) && !pat.isEmpty then
      removeOccAux pat fuel (xs.drop (pat.length - 1))
    else
      x :: removeOccAux pat fuel xs

/-- Python `s.replace(pat, '')` for a non-empty `pat`: remove every
(non-overlapping, left-to-right) occurrence of `pat`. -/
def removeOcc (pat cs : List Char) : List Char :=
  removeOccAux pat cs.length cs

/-- `os.path.basename` for forward-slash paths: the part after the last `/`. -/
def baseName (p : String) : String :=
  (splitPath p).getLastD ""

/-- Index of the last occurrence of `c` in `cs`, if any (Python `str.rfind`). -/
def rfindIdx (c : Char) (cs : List Char) : Option Nat :=
  match (cs.reverse).findIdx? (fun x => x == c) with
  | some k => some (cs.length - 1 - k)
  | none => none

/-- `os.path.splitext(b)[0]` for a basename `b`: drop the final `.ext`
unless every character before the last dot is itself a dot (so hidden
files like `.obsidian` keep their name). -/
def splitextStem (b : String) : String :=
  let cs := b.data
  match rfindIdx '.' cs with
  | none => b
  | some d =>
    if (cs.take d).any (fun ch => ch != '.') then List.asString (cs.take d) else b

/-! ## Python `uuid.UUID` (identifier parsing) -/

/-- Errors raised by the embedded Python code.  `str(e)` of an exception is
its message, embedded as `pyMsg`. -/
inductive PyError where
  | valueError (msg : String)
  | badZipFile (msg : String)
  | osError (msg : String)
  deriving DecidableEq, Repr

/-- `str(e)` for an exception value. -/
def pyMsg : PyError → String
  | .valueError m => m
  | .badZipFile m => m
  | .osError m => m

/-- Decidable equality for `Except`, needed to evaluate the embedded
fallible operations on concrete inputs. -/
instance {ε α : Type} [DecidableEq ε] [DecidableEq α] : DecidableEq (Except ε α) := fun a b =>
  match a, b with
  | .ok x, .ok y => if h : x = y then .isTrue (by rw [h]) else .isFalse (by simp [h])
  | .error x, .error y => if h : x = y then .isTrue (by rw [h]) else .isFalse (by simp [h])
  | .ok _, .error _ => .isFalse (by simp)
  | .error _, .ok _ => .isFalse (by simp)

/-- Value of a hexadecimal digit character, if it is one (code points:
digits 48-57, lowercase a-f 97-102, uppercase A-F 65-70). -/
def hexDigitValue (c : Char) : Option Nat :=
  let n := c.toNat
  if 48 ≤ n ∧ n ≤ 57 then some (n - 48)
  else if 97 ≤ n ∧ n ≤ 102 then some (n - 87)
  else if 65 ≤ n ∧ n ≤ 70 then some (n - 55)
  else none

/-- Is `c` one of the brace characters stripped by `hex.strip('{}')`?
(The characters are written via their code points.) -/
def isBraceChar (c : Char) : Bool :=
  c == Char.ofNat 123 || c == Char.ofNat 125

/-- Embedding of Python's `uuid.UUID(hex=s)` constructor (CPython `uuid.py`):
remove every occurrence of `urn:` and `uuid:`, strip braces from both ends,
remove all hyphens, require exactly 32 hexadecimal digits, and read them as a
128-bit integer.  A malformed string yields the raised `ValueError`.
(Python's `int(hex, 16)` additionally tolerates exotic 32-character forms with
signs, whitespace, `0x` prefixes or underscores; no such string is a
well-formed UUID and no claim depends on them, so they are not modelled.) -/
def pyUUID (s : String) : Except PyError Nat :=
  let cs := removeOcc "uuid:".data (removeOcc "urn:".data s.data)
  let cs := (stripEnds isBraceChar cs).filter (fun c => c != '-')
  if cs.length ≠ 32 then
    .error (.valueError "badly formed hexadecimal UUID string")
  else
    match cs.mapM hexDigitValue with
    | some ds => .ok (ds.foldl (fun a d => a * 16 + d) 0)
    | none => .error (.valueError "invalid literal for int() with base 16")

/-- Hexadecimal digit character for a value `< 16` (lowercase). -/
def hexChar (n : Nat) : Char :=
  if n < 10 then Char.ofNat (48 + n) else Char.ofNat (87 + n)

/-- Zero-padded lowercase hexadecimal rendering of `n` to `width` digits. -/
def toHexPad (n width : Nat) : List Char :=
  (List.range width).reverse.map (fun i => hexChar (n / 16 ^ i % 16))

/-- `str(uuid.UUID(int=n))`: the canonical 8-4-4-4-12 lowercase rendering. -/
def uuidCanonical (n : Nat) : String :=
  let h := toHexPad (n % 2 ^ 128) 32
  List.asString (h.take 8) ++ "-" ++ List.asString ((h.drop 8).take 4) ++ "-" ++
    List.asString ((h.drop 12).take 4) ++ "-" ++ List.asString ((h.drop 16).take 4) ++ "-" ++
    List.asString (h.drop 20)

/-! ## Data model (`libs/models/vault.py` is not part of the sources;
its enum and record shape are modelled from the spec, §3) -/

/-- Modelled from the spec: `VaultStatus` enum of `libs.models.vault`
(absent from the sources) — lifecycle states
`UPLOADED → PROCESSING → COMPLETED`, with `FAILED` as the error state. -/
inductive VaultStatus where
  | uploaded
  | processing
  | completed
  | failed
  deriving DecidableEq, Repr

/-- Modelled from the spec: the persisted Vault record (`VaultDB` of
`libs.models.vault`, absent from the sources).  Byte size and timestamps
are not modelled; no claim depends on them. -/
structure VaultRecord where
  name : String
  originalFilename : String
  storagePath : String
  status : VaultStatus
  errorMessage : Option String
  fileCount : Option Nat
  processedFiles : Option Nat
  deriving DecidableEq, Repr

/-- The relational store: an association list keyed by the UUID value.
`find_by_id` returns the first (unique, since ids are primary keys) match. -/
abbrev Db := List (Nat × VaultRecord)

/-- `db.query(VaultDB).filter(VaultDB.id == u).first()`. -/
def findById : Db → Nat → Option VaultRecord
  | [], _ => none
  | e :: db, u => if e.1 = u then some e.2 else findById db u

/-- Commit a fully computed record back under key `u` (SQLAlchemy mutates the
row found by the query; keys are unique so at most one entry changes). -/
def setById : Db → Nat → VaultRecord → Db
  | [], _, _ => []
  | e :: db, u, v => (if e.1 = u then (e.1, v) else e) :: setById db u v

/-- Mutate the row under key `u` in place with `f`. -/
def modifyById : Db → Nat → (VaultRecord → VaultRecord) → Db
  | [], _, _ => []
  | e :: db, u, f => (if e.1 = u then (e.1, f e.2) else e) :: modifyById db u f

/-- `db.delete(row)` for the row keyed `u`. -/
def removeById : Db → Nat → Db
  | [], _ => []
  | e :: db, u => if e.1 = u then removeById db u else e :: removeById db u

/-- `db.add(row); db.commit()` for a fresh record (insertion order is
irrelevant to every claim; the listing endpoint orders by timestamp). -/
def insertRecord (db : Db) (u : Nat) (v : VaultRecord) : Db :=
  (u, v) :: db

/-! ## Archive payloads and zip extraction -/

/-- One entry of a zip archive's `namelist()`.  Entries whose name ends in
`/` are directory entries. -/
structure ZipEntry where
  name : String
  deriving DecidableEq, Repr

/-- The uploaded bytes, as seen by `zipfile.ZipFile`: either they fail to
open as a zip archive (`BadZipFile` on open — `corrupt`), or they open and
expose a list of entries.  (`testzip()`'s return value is ignored by the
source, so CRC state is not part of the model.) -/
inductive Payload where
  | corrupt
  | zip (entries : List ZipEntry)
  deriving DecidableEq, Repr

/-- POSIX entry-name sanitisation performed by CPython's
`ZipFile._extract_member`: split on `/` and drop empty, `.` and `..`
components, so the target path always resolves under the destination. -/
def memberPathParts (name : String) : List String :=
  (splitPath name).filter (fun p => p != "" && p != "." && p != "..")

/-- The sanitised extraction-dir-relative path of an entry. -/
def sanitizeMemberPath (name : String) : String :=
  String.intercalate "/" (memberPathParts name)

/-- Outcome of `zip_file.extractall(extract_dir)`, with the destination
directory given by its path components.  `rejectedUnsafe` is modelled from
the spec: the `UnsafeArchiveEntry` rejection the spec requires for
path-traversal entries; the source never produces it (CPython's `extractall`
sanitises entry names instead), and it is present so the claim is statable. -/
inductive ExtractOutcome where
  | extracted (targets : List (List String))
  | rejectedUnsafe
  deriving DecidableEq, Repr

/-- Component paths of everything `extractall` writes: each entry lands at
the destination directory extended by its sanitised name. -/
def extractTargets (dir : List String) (entries : List ZipEntry) : List (List String) :=
  entries.map (fun e => dir ++ memberPathParts e.name)

/-- `zip_file.extractall(extract_dir)` as performed by
`VaultService._process_vault_files` and `extract_vault_files`: every entry is
written (at its sanitised path); no entry is ever rejected. -/
def extractall (dir : List String) (entries : List ZipEntry) : ExtractOutcome :=
  .extracted (extractTargets dir entries)

/-! ## Classification (`_process_vault_files` / `extract_vault_files` loops) -/

/-- `file.endswith('.md')` where `file` is the walked file's basename. -/
def isNote (relPath : String) : Bool :=
  strEndsWith (baseName relPath) ".md"

/-- `file.startswith('.') or '.obsidian' in relative_path`. -/
def isConfig (relPath : String) : Bool :=
  strStartsWith (baseName relPath) "." || strContains relPath ".obsidian"

/-- The classification loop over the walked files, producing the
`markdown_files`, `config_files` and `attachment_files` lists in walk order:
`.md` basenames are notes; otherwise hidden basenames or `.obsidian` paths
are configuration; everything else is an attachment. -/
def classifyFiles : List String → List String × List String × List String
  | [] => ([], [], [])
  | p :: rest =>
    let r := classifyFiles rest
    if isNote p then (p :: r.1, r.2.1, r.2.2)
    else if isConfig p then (r.1, p :: r.2.1, r.2.2)
    else (r.1, r.2.1, p :: r.2.2)

/-- The files `os.walk` finds in the extracted tree, as extraction-root
relative paths: the non-directory entries at their sanitised paths.  (The
on-disk enumeration order is filesystem-specific; no claim depends on it,
so zip order is used.  An entry sanitising to the empty path writes nothing
walkable and is dropped.) -/
def walkFiles (entries : List ZipEntry) : List String :=
  ((entries.filter (fun e => !strEndsWith e.name "/")).map
      (fun e => sanitizeMemberPath e.name)).filter (fun p => p != "")

/-- `VaultFileInfo` (the dict returned by `extract_vault_files` / the model
returned by `_process_vault_files`).  `extraction_path` is a derived
directory string carried for the analyzer; it is not modelled. -/
structure VaultFileInfo where
  file_count : Nat
  markdown_files : List String
  attachment_files : List String
  config_files : List String
  deriving DecidableEq, Repr

/-! ## VaultService (`apps/api/services/vault_service.py`) -/

/-- The `UploadFile` handed to `upload_and_process_vault`: `filename` and
`size` may be absent (`None`), `content` is what `await file.read()` yields
as seen by `zipfile`. -/
structure UploadedFile where
  filename : Option String
  size : Option Nat
  content : Payload
  deriving DecidableEq, Repr

/-- Combined system state: the relational store and the blob store
(storage path ↦ stored payload). -/
structure SysState where
  db : Db
  storage : List (String × Payload)
  deriving DecidableEq, Repr

/-- `VaultUpload` response model. -/
structure VaultUpload where
  id : Nat
  name : String
  status : VaultStatus
  message : String
  deriving DecidableEq, Repr

/-- `VaultService._validate_vault_file`: reject a missing/empty or
non-`.zip` filename, and a declared size over the maximum (`None` and `0`
sizes skip the check, per Python truthiness). -/
def validate_vault_file (file : UploadedFile) (maxSize : Nat) : Except PyError String :=
  match file.filename with
  | none => .error (.valueError "Only ZIP files are supported")
  | some fn =>
    if !strEndsWith fn ".zip" then .error (.valueError "Only ZIP files are supported")
    else
      match file.size with
      | some s =>
        if s > maxSize then
          .error (.valueError ("File size exceeds maximum limit of " ++ toString maxSize ++ " bytes"))
        else .ok fn
      | none => .ok fn

/-- `VaultService._is_valid_zip_content`: `False` when the bytes do not open
as a zip archive; otherwise `True` iff some entry name ends in `.md` or
contains `.obsidian`. -/
def is_valid_zip_content : Payload → Bool
  | .corrupt => false
  | .zip entries =>
    entries.any (fun f => strEndsWith f.name ".md" || strContains f.name ".obsidian")

/-- `VaultService._process_vault_files(storage_path)`: open the stored
archive (already validated, but modelled totally: unopenable bytes raise
`BadZipFile`), extract everything, walk the tree and classify, and report
`file_count = len(zip_file.namelist())` — the archive entry count,
directory entries included. -/
def process_vault_files : Payload → Except PyError VaultFileInfo
  | .corrupt => .error (.badZipFile "File is not a zip file")
  | .zip entries =>
    let file_list := entries.map (fun e => e.name)
    let classified := classifyFiles (walkFiles entries)
    .ok { file_count := file_list.length
          markdown_files := classified.1
          config_files := classified.2.1
          attachment_files := classified.2.2 }

/-- The field-merge semantics of `VaultService.update_vault_status`: the
status is always overwritten; `error_message`, `file_count` and
`processed_files` are overwritten only when the corresponding argument is
not `None` (so an old error message is never cleared). -/
def applyStatusUpdate (v : VaultRecord) (status : VaultStatus) (em : Option String)
    (fc pf : Option Nat) : VaultRecord :=
  { v with
    status := status
    errorMessage := match em with | some m => some m | none => v.errorMessage
    fileCount := match fc with | some c => some c | none => v.fileCount
    processedFiles := match pf with | some c => some c | none => v.processedFiles }

/-- `update_vault_status` applied directly at a known id (used by the inline
pipeline, where `str(vault.id)` round-trips to the record's own id). -/
def updateById (db : Db) (u : Nat) (status : VaultStatus) (em : Option String)
    (fc pf : Option Nat) : Db :=
  match findById db u with
  | none => db
  | some v => setById db u (applyStatusUpdate v status em fc pf)

/-- `VaultService.get_vault(vault_id)`: `UUID(vault_id)` raises on a
malformed id; otherwise the record, or `None` when absent. -/
def get_vault (db : Db) (vaultId : String) : Except PyError (Option VaultRecord) :=
  match pyUUID vaultId with
  | .error e => .error e
  | .ok u => .ok (findById db u)

/-- `VaultService.update_vault_status(vault_id, status, ...)`: `UUID`
raises on a malformed id; `None` when the record is absent; otherwise the
updated record and store. -/
def update_vault_status (db : Db) (vaultId : String) (status : VaultStatus)
    (em : Option String) (fc pf : Option Nat) : Except PyError (Option VaultRecord × Db) :=
  match pyUUID vaultId with
  | .error e => .error e
  | .ok u =>
    match findById db u with
    | none => .ok (none, db)
    | some v =>
      let v' := applyStatusUpdate v status em fc pf
      .ok (some v', setById db u v')

/-- `VaultService.delete_vault(vault_id)`: `UUID` raises on a malformed id;
`False` when the record is absent; otherwise remove the record and
(best-effort, failures logged and ignored) its stored files. -/
def delete_vault (st : SysState) (vaultId : String) : Except PyError (Bool × SysState) :=
  match pyUUID vaultId with
  | .error e => .error e
  | .ok u =>
    match findById st.db u with
    | none => .ok (false, st)
    | some v =>
      .ok (true, { db := removeById st.db u
                   storage := st.storage.filter (fun p => p.1 != v.storagePath) })

/-- `VaultService.upload_and_process_vault(file, name, max_size)`:
validate filename/size, read and validate the zip content, store the bytes
under a fresh id, create the record (UPLOADED), then process inside the
single `try`: on success update to COMPLETED with
`file_count = processed_files = entry count`; on any exception update to
FAILED with the exception's message and re-raise
`ValueError(f"Failed to process vault: {e}")`.  The processing step is the
injected `proc` (instantiated with `process_vault_files`); `newId` is the
`uuid4()` value. -/
def upload_and_process_vault (storageRoot : String)
    (proc : Payload → Except PyError VaultFileInfo)
    (st : SysState) (file : UploadedFile) (name : String) (maxSize : Nat)
    (newId : Nat) : Except PyError VaultUpload × SysState :=
  match validate_vault_file file maxSize with
  | .error e => (.error e, st)
  | .ok filename =>
    if is_valid_zip_content file.content then
      let storagePath := storageRoot ++ "/" ++ uuidCanonical newId ++ ".zip"
      let st1 : SysState := { st with storage := (storagePath, file.content) :: st.storage }
      let rec0 : VaultRecord :=
        { name := name, originalFilename := filename, storagePath := storagePath
          status := .uploaded, errorMessage := none, fileCount := none, processedFiles := none }
      let db1 := insertRecord st1.db newId rec0
      match proc file.content with
      | .ok fi =>
        (.ok { id := newId, name := name, status := .completed
               message := "Vault uploaded and processed successfully" },
         { st1 with db := updateById db1 newId .completed none (some fi.file_count) (some fi.file_count) })
      | .error e =>
        (.error (.valueError ("Failed to process vault: " ++ pyMsg e)),
         { st1 with db := updateById db1 newId .failed (some (pyMsg e)) none none })
    else
      (.error (.valueError "Invalid ZIP file format or missing Obsidian files"), st)

/-! ## Worker tasks (`apps/workers/tasks/vault_processing.py`) -/

/-- Reading the stored archive bytes at a storage path (`FileNotFoundError`
when nothing was stored there). -/
def lookupStorage (storage : List (String × Payload)) (p : String) : Except PyError Payload :=
  match storage.find? (fun e => e.1 == p) with
  | some e => .ok e.2
  | none => .error (.osError ("No such file or directory: " ++ p))

/-- `extract_vault_files(vault_id)`, from the stored payload onward: open
the archive, extract, walk and classify, `file_count = len(namelist())`.
(Identical classification logic to `_process_vault_files`; embedded
separately because it is separate source.) -/
def extract_vault_files : Payload → Except PyError VaultFileInfo
  | .corrupt => .error (.badZipFile "File is not a zip file")
  | .zip entries =>
    let file_list := entries.map (fun e => e.name)
    let classified := classifyFiles (walkFiles entries)
    .ok { file_count := file_list.length
          markdown_files := classified.1
          config_files := classified.2.1
          attachment_files := classified.2.2 }

/-- The body of `process_vault`'s `try` after the PROCESSING commit:
read the stored bytes, run `extract_vault_files`, then
`analyze_vault_content` — whose possible exception (it re-raises anything
the per-vault filesystem throws) is the injected `analysisOutcome`. -/
def attemptSteps (st : SysState) (v : VaultRecord)
    (analysisOutcome : Except PyError Unit) : Except PyError VaultFileInfo := do
  let payload ← lookupStorage st.storage v.storagePath
  let fi ← extract_vault_files payload
  let _ ← analysisOutcome
  pure fi

/-- One execution (attempt) of the `process_vault` task — `max_retries=3`,
so after a failure celery re-runs the same body as a fresh attempt.
`UUID(vault_id)` raising, or the vault being absent, leaves the store
untouched (the `except` handler re-queries and finds nothing to update).
Otherwise the status is set to PROCESSING unconditionally, and then either
COMPLETED with `file_count = processed_files = file_info["file_count"]`, or
FAILED with the exception's message (`error_message` of other attempts is
never cleared).  The `ProcessingJobDB` audit row touches no claim and is
not modelled. -/
def process_vault_attempt (st : SysState) (vaultId : String)
    (analysisOutcome : Except PyError Unit) : SysState :=
  match pyUUID vaultId with
  | .error _ => st
  | .ok u =>
    match findById st.db u with
    | none => st
    | some v =>
      let db1 := modifyById st.db u (fun w => { w with status := VaultStatus.processing })
      match attemptSteps st v analysisOutcome with
      | .ok fi =>
        { st with db := modifyById db1 u (fun w =>
            { w with status := .completed, fileCount := some fi.file_count
                     processedFiles := some fi.file_count }) }
      | .error e =>
        { st with db := modifyById db1 u (fun w =>
            { w with status := .failed, errorMessage := some (pyMsg e) }) }

/-! ## Content analyzer (`analyze_vault_content`) -/

/-- One path from `file_info["markdown_files"]` together with the outcome of
opening and reading it: `some` text on success, `none` when the read raises
(that note is logged and skipped). -/
structure NoteFile where
  path : String
  content : Option String
  deriving DecidableEq, Repr

/-- Title derivation for one note: the first line whose stripped form starts
with `# ` yields `line.strip()[2:]`; otherwise (or if that is empty, per
`if not title`) the filename without its extension. -/
def deriveTitle (mdFile content : String) : String :=
  match (splitOnChar '\n' content.data).find? (fun l => strStartsWith (pyStrip (List.asString l)) "# ") with
  | some l =>
    let t := List.asString ((pyStrip (List.asString l)).data.drop 2)
    if t = "" then splitextStem (baseName mdFile) else t
  | none => splitextStem (baseName mdFile)

/-- The analyzer's loop: accumulate `total_content_length` over the
successfully read notes and append one derived title per read note, in
order; unreadable notes contribute nothing. -/
def analyzeNotes : List NoteFile → Nat × List String
  | [] => (0, [])
  | n :: rest =>
    match n.content with
    | some c =>
      let r := analyzeNotes rest
      (c.length + r.1, deriveTitle n.path c :: r.2)
    | none => analyzeNotes rest

/-- `AnalysisResult`: the dict built by `analyze_vault_content`.  The
average is Python's true division, embedded over `ℚ`. -/
structure AnalysisResult where
  total_content_length : Nat
  note_titles : List String
  average_note_length : ℚ
  deriving DecidableEq, Repr

/-- `analyze_vault_content`, from the markdown list and per-note read
outcomes onward: sum the lengths of the notes that read successfully,
derive their titles, and divide by the number of notes in the *input* list
(`len(markdown_files)`), defined as `0` when that list is empty. -/
def analyze_vault_content (files : List NoteFile) : AnalysisResult :=
  let acc := analyzeNotes files
  { total_content_length := acc.1
    note_titles := acc.2
    average_note_length :=
      if files.isEmpty then 0 else (acc.1 : ℚ) / (files.length : ℚ) }

/-! ## Core operation traces -/

/-- The core operations a trace may perform: an inline upload (with its
fresh `uuid4` value and its processing step), one queued `process_vault`
attempt (a retry is simply a later attempt in the trace), a direct status
update, and a delete. -/
inductive CoreOp where
  | uploadInline (storageRoot : String) (file : UploadedFile) (name : String)
      (maxSize : Nat) (newId : Nat) (proc : Payload → Except PyError VaultFileInfo)
  | workerAttempt (vaultId : String) (analysisOutcome : Except PyError Unit)
  | statusUpdate (vaultId : String) (status : VaultStatus) (em : Option String)
      (fc pf : Option Nat)
  | deleteOp (vaultId : String)

/-- Effect of one core operation on the system state (an operation that
raises leaves the state it had mutated so far, exactly as the code does). -/
def stepOp (st : SysState) : CoreOp → SysState
  | .uploadInline sr f n m i proc => (upload_and_process_vault sr proc st f n m i).2
  | .workerAttempt vid a => process_vault_attempt st vid a
  | .statusUpdate vid s em fc pf =>
    match update_vault_status st.db vid s em fc pf with
    | .ok r => { st with db := r.2 }
    | .error _ => st
  | .deleteOp vid =>
    match delete_vault st vid with
    | .ok r => r.2
    | .error _ => st

/-- Run a sequence of core operations. -/
def runOps (st : SysState) (ops : List CoreOp) : SysState :=
  ops.foldl stepOp st

/-- Observed status of the vault keyed `u`. -/
def vaultStatus (st : SysState) (u : Nat) : Option VaultStatus :=
  (findById st.db u).map (fun v => v.status)

/-- Observed error message of the vault keyed `u` (`none` when the record is
absent or its `error_message` is NULL). -/
def vaultErrMsg (st : SysState) (u : Nat) : Option String :=
  (findById st.db u).bind (fun v => v.errorMessage)

/-- Observed `file_count` of the vault keyed `u`. -/
def vaultFileCount (st : SysState) (u : Nat) : Option Nat :=
  (findById st.db u).bind (fun v => v.fileCount)

/-- Observed `processed_files` of the vault keyed `u`. -/
def vaultProcessed (st : SysState) (u : Nat) : Option Nat :=
  (findById st.db u).bind (fun v => v.processedFiles)

/-! ## Concrete fixtures for the counterexample and witness evaluations -/

/-- The canonical identifier string of the vault keyed `1`. -/
def vidFix : String := "00000000-0000-0000-0000-000000000001"

/-- A storage path for that vault's archive. -/
def spFix : String := "vaults/00000000-0000-0000-0000-000000000001.zip"

/-- A small archive: one directory entry, one note, one attachment —
three `namelist()` entries but two files on disk. -/
def archiveFix : List ZipEntry := [⟨"notes/"⟩, ⟨"notes/a.md"⟩, ⟨"img.png"⟩]

/-- A vault record freshly created for that archive, still UPLOADED. -/
def recFix : VaultRecord :=
  { name := "Test Vault", originalFilename := "vault.zip", storagePath := spFix
    status := .uploaded, errorMessage := none, fileCount := none, processedFiles := none }

/-- System state holding that record and its stored archive. -/
def stFix : SysState := { db := [(1, recFix)], storage := [(spFix, .zip archiveFix)] }

/-- A `process_vault` attempt whose analysis step raises (a transient
I/O failure, the retryable kind celery re-dispatches). -/
def failAttempt : CoreOp := .workerAttempt vidFix (.error (.osError "disk I/O error"))

/-- The retry of that task: a later attempt of the same body, succeeding. -/
def okAttempt : CoreOp := .workerAttempt vidFix (.ok ())

/-- A two-note read outcome: one readable note, one whose read raises. -/
def notesFix : List NoteFile :=
  [⟨"a.md", some "# Note 1\n\nThis is the first note."⟩, ⟨"b.md", none⟩]

/-- A well-formed upload of `archiveFix`. -/
def fileFix : UploadedFile := ⟨some "vault.zip", some 100, .zip archiveFix⟩

/-- A valid zip upload with no `.md` entry and no `.obsidian` path. -/
def fileNoKB : UploadedFile := ⟨some "a.zip", none, .zip [⟨"data/img.png"⟩]⟩

/-- An upload whose bytes do not open as a zip archive. -/
def fileCorrupt : UploadedFile := ⟨some "b.zip", none, .corrupt⟩

/-- An upload with a non-`.zip` filename. -/
def fileTxt : UploadedFile := ⟨some "test.txt", none, .corrupt⟩

/-! ## Invariant predicates -/

/-- Every FAILED record carries an error message. -/
def FailedHasMsg (db : Db) : Prop :=
  ∀ p ∈ db, p.2.status = VaultStatus.failed → p.2.errorMessage.isSome

/-- The operations the ingestion pipeline itself performs (inline uploads,
queued attempts, deletes) — everything but a direct `update_vault_status`
call with caller-chosen arguments. -/
def PipelineOp : CoreOp → Prop
  | .statusUpdate _ _ _ _ _ => False
  | _ => True

/-- Operations that cannot touch the record keyed `u`: an inline upload
whose fresh `uuid4` value differs from `u`, or a delete. -/
def InlineFreshOrDelete (u : Nat) : CoreOp → Prop
  | .uploadInline _ _ _ _ i _ => i ≠ u
  | .deleteOp _ => True
  | _ => False

end AutoSecondBrain

namespace AutoSecondBrain

/-! ## Store lemmas -/

theorem findById_setById_self (db : Db) (u : Nat) (v : VaultRecord) :
    findById (setById db u v) u = (findById db u).map (fun _ => v) := by
  induction db with
  | nil => rfl
  | cons e db ih =>
    by_cases h : e.1 = u <;> simp [setById, findById, h, ih]

theorem findById_setById_ne (db : Db) (u w : Nat) (v : VaultRecord) (h : w ≠ u) :
    findById (setById db u v) w = findById db w := by
  induction db with
  | nil => rfl
  | cons e db ih =>
    by_cases he : e.1 = u
    · simp [setById, findById, he, Ne.symm h, ih]
    · simp [setById, findById, he, ih]

theorem findById_modifyById_self (db : Db) (u : Nat) (f : VaultRecord → VaultRecord) :
    findById (modifyById db u f) u = (findById db u).map f := by
  induction db with
  | nil => rfl
  | cons e db ih =>
    by_cases h : e.1 = u <;> simp [modifyById, findById, h, ih]

theorem findById_modifyById_ne (db : Db) (u w : Nat) (f : VaultRecord → VaultRecord)
    (h : w ≠ u) : findById (modifyById db u f) w = findById db w := by
  induction db with
  | nil => rfl
  | cons e db ih =>
    by_cases he : e.1 = u
    · simp [modifyById, findById, he, Ne.symm h, ih]
    · simp [modifyById, findById, he, ih]

theorem findById_removeById_self (db : Db) (u : Nat) :
    findById (removeById db u) u = none := by
  induction db with
  | nil => rfl
  | cons e db ih =>
    by_cases h : e.1 = u <;> simp [removeById, findById, h, ih]

theorem findById_removeById_ne (db : Db) (u w : Nat) (h : w ≠ u) :
    findById (removeById db u) w = findById db w := by
  induction db with
  | nil => rfl
  | cons e db ih =>
    by_cases he : e.1 = u
    · simp [removeById, findById, he, Ne.symm h, ih]
    · simp [removeById, findById, he, ih]

theorem findById_insertRecord_self (db : Db) (u : Nat) (v : VaultRecord) :
    findById (insertRecord db u v) u = some v := by
  simp [insertRecord, findById]

theorem findById_insertRecord_ne (db : Db) (u w : Nat) (v : VaultRecord) (h : w ≠ u) :
    findById (insertRecord db u v) w = findById db w := by
  simp [insertRecord, findById, Ne.symm h]

theorem findById_updateById_self (db : Db) (u : Nat) (s : VaultStatus)
    (em : Option String) (fc pf : Option Nat) :
    findById (updateById db u s em fc pf) u =
      (findById db u).map (fun v => applyStatusUpdate v s em fc pf) := by
  unfold updateById
  rcases hf : findById db u with _ | v
  · simp [hf]
  · simp [hf, findById_setById_self]

theorem findById_updateById_ne (db : Db) (u w : Nat) (s : VaultStatus)
    (em : Option String) (fc pf : Option Nat) (h : w ≠ u) :
    findById (updateById db u s em fc pf) w = findById db w := by
  unfold updateById
  rcases hf : findById db u with _ | v
  · rfl
  · exact findById_setById_ne _ _ _ _ h

theorem mem_setById {p : Nat × VaultRecord} {db : Db} {u : Nat} {v : VaultRecord}
    (hp : p ∈ setById db u v) : p ∈ db ∨ p.2 = v := by
  induction db with
  | nil => cases hp
  | cons e db ih =>
    rcases List.mem_cons.mp hp with h | h
    · by_cases he : e.1 = u
      · simp [he] at h
        right
        rw [h]
      · simp [he] at h
        left
        simp [h]
    · rcases ih h with h' | h'
      · exact Or.inl (List.mem_cons_of_mem _ h')
      · exact Or.inr h'

theorem mem_modifyById {p : Nat × VaultRecord} {db : Db} {u : Nat}
    {f : VaultRecord → VaultRecord} (hp : p ∈ modifyById db u f) :
    p ∈ db ∨ ∃ w, p.2 = f w := by
  induction db with
  | nil => cases hp
  | cons e db ih =>
    rcases List.mem_cons.mp hp with h | h
    · by_cases he : e.1 = u
      · simp [he] at h
        right
        exact ⟨e.2, by rw [h]⟩
      · simp [he] at h
        left
        simp [h]
    · rcases ih h with h' | h'
      · exact Or.inl (List.mem_cons_of_mem _ h')
      · exact Or.inr h'

theorem mem_removeById {p : Nat × VaultRecord} {db : Db} {u : Nat}
    (hp : p ∈ removeById db u) : p ∈ db := by
  induction db with
  | nil => cases hp
  | cons e db ih =>
    by_cases he : e.1 = u
    · simp [removeById, he] at hp
      exact List.mem_cons_of_mem _ (ih hp)
    · simp [removeById, he] at hp
      rcases hp with h | h
      · simp [h]
      · exact List.mem_cons_of_mem _ (ih h)

/-! ## `FailedHasMsg` preservation lemmas -/

theorem fhm_setById {db : Db} {u : Nat} {v : VaultRecord} (hdb : FailedHasMsg db)
    (hv : v.status = VaultStatus.failed → v.errorMessage.isSome) :
    FailedHasMsg (setById db u v) := by
  intro p hp hst
  rcases mem_setById hp with h | h
  · exact hdb p h hst
  · rw [h] at hst ⊢
    exact hv hst

theorem fhm_modifyById {db : Db} {u : Nat} {f : VaultRecord → VaultRecord}
    (hdb : FailedHasMsg db)
    (hf : ∀ w, (f w).status = VaultStatus.failed → (f w).errorMessage.isSome) :
    FailedHasMsg (modifyById db u f) := by
  intro p hp hst
  rcases mem_modifyById hp with h | ⟨w, h⟩
  · exact hdb p h hst
  · rw [h] at hst ⊢
    exact hf w hst

theorem fhm_removeById {db : Db} {u : Nat} (hdb : FailedHasMsg db) :
    FailedHasMsg (removeById db u) :=
  fun p hp hst => hdb p (mem_removeById hp) hst

theorem fhm_cons {db : Db} {u : Nat} {v : VaultRecord} (hdb : FailedHasMsg db)
    (hv : v.status = VaultStatus.failed → v.errorMessage.isSome) :
    FailedHasMsg ((u, v) :: db) := by
  intro p hp hst
  rcases List.mem_cons.mp hp with h | h
  · rw [h] at hst ⊢
    exact hv hst
  · exact hdb p h hst

theorem fhm_updateById {db : Db} {u : Nat} {s : VaultStatus} {em : Option String}
    {fc pf : Option Nat} (hdb : FailedHasMsg db)
    (hs : s = VaultStatus.failed → em.isSome) :
    FailedHasMsg (updateById db u s em fc pf) := by
  unfold updateById
  rcases hf : findById db u with _ | v
  · exact hdb
  · refine fhm_setById hdb ?_
    intro hst
    have hsf : s = VaultStatus.failed := by simpa [applyStatusUpdate] using hst
    rcases em with _ | m
    · simpa using hs hsf
    · simp [applyStatusUpdate]

/-! ## Step-level preservation lemmas -/

theorem fhm_upload (storageRoot : String) (proc : Payload → Except PyError VaultFileInfo)
    (st : SysState) (file : UploadedFile) (name : String) (maxSize newId : Nat)
    (h : FailedHasMsg st.db) :
    FailedHasMsg ((upload_and_process_vault storageRoot proc st file name maxSize newId).2).db := by
  unfold upload_and_process_vault
  rcases hv : validate_vault_file file maxSize with e | fn
  · simpa using h
  · cases hz : is_valid_zip_content file.content
    · simpa using h
    · rcases hp : proc file.content with e | fi
      · simp only [hz, if_true]
        exact fhm_updateById (fhm_cons h (by simp)) (by simp)
      · simp only [hz, if_true]
        exact fhm_updateById (fhm_cons h (by simp)) (by simp)

theorem fhm_worker (st : SysState) (vid : String) (a : Except PyError Unit)
    (h : FailedHasMsg st.db) : FailedHasMsg (process_vault_attempt st vid a).db := by
  unfold process_vault_attempt
  rcases hu : pyUUID vid with e | u
  · simpa using h
  · rcases hf : findById st.db u with _ | v
    · simpa [hf] using h
    · rcases ha : attemptSteps st v a with e | fi
      · simp only [hf, ha]
        refine fhm_modifyById (fhm_modifyById h ?_) ?_
        · intro w hw; simp at hw
        · intro w hw; rfl
      · simp only [hf, ha]
        refine fhm_modifyById (fhm_modifyById h ?_) ?_
        · intro w hw; simp at hw
        · intro w hw; simp at hw

theorem fhm_stepOp (st : SysState) (op : CoreOp) (hop : PipelineOp op)
    (h : FailedHasMsg st.db) : FailedHasMsg (stepOp st op).db := by
  cases op with
  | uploadInline sr f n m i proc => exact fhm_upload sr proc st f n m i h
  | workerAttempt vid a => exact fhm_worker st vid a h
  | statusUpdate vid s em fc pf => exact hop.elim
  | deleteOp vid =>
    simp only [stepOp]
    unfold delete_vault
    rcases hu : pyUUID vid with e | u
    · simpa using h
    · rcases hf : findById st.db u with _ | v
      · simpa [hf] using h
      · simpa [hf] using fhm_removeById h

theorem fhm_runOps (ops : List CoreOp) : ∀ st : SysState,
    (∀ op ∈ ops, PipelineOp op) → FailedHasMsg st.db →
    FailedHasMsg (runOps st ops).db := by
  induction ops with
  | nil => exact fun st _ h => h
  | cons op ops ih =>
    intro st hops h
    exact ih (stepOp st op) (fun o ho => hops o (List.mem_cons_of_mem _ ho))
      (fhm_stepOp st op (hops op (List.mem_cons_self _ _)) h)

theorem stepOp_preserves_record (st : SysState) (op : CoreOp) (u : Nat)
    (hop : InlineFreshOrDelete u op) :
    findById (stepOp st op).db u = findById st.db u ∨
      findById (stepOp st op).db u = none := by
  cases op with
  | uploadInline sr f n m i proc =>
    have hiu : i ≠ u := hop
    left
    simp only [stepOp]
    unfold upload_and_process_vault
    rcases hv : validate_vault_file f m with e | fn
    · rfl
    · cases hz : is_valid_zip_content f.content
      · rfl
      · rcases hp : proc f.content with e | fi
        · simp only [hz, if_true]
          rw [findById_updateById_ne _ _ _ _ _ _ _ (Ne.symm hiu),
            findById_insertRecord_ne _ _ _ _ (Ne.symm hiu)]
        · simp only [hz, if_true]
          rw [findById_updateById_ne _ _ _ _ _ _ _ (Ne.symm hiu),
            findById_insertRecord_ne _ _ _ _ (Ne.symm hiu)]
  | workerAttempt vid a => exact hop.elim
  | statusUpdate vid s em fc pf => exact hop.elim
  | deleteOp vid =>
    simp only [stepOp]
    unfold delete_vault
    rcases hu : pyUUID vid with e | w
    · left; rfl
    · rcases hf : findById st.db w with _ | v
      · left; simp [hf]
      · by_cases hw : w = u
        · right
          subst hw
          simp [hf, findById_removeById_self]
        · left
          simp [hf, findById_removeById_ne _ _ _ (Ne.symm hw)]

theorem runOps_preserves_record (ops : List CoreOp) : ∀ st : SysState, ∀ u : Nat,
    ∀ r : VaultRecord, (∀ op ∈ ops, InlineFreshOrDelete u op) →
    (findById st.db u = some r ∨ findById st.db u = none) →
    (findById (runOps st ops).db u = some r ∨ findById (runOps st ops).db u = none) := by
  induction ops with
  | nil => exact fun st u r _ h => h
  | cons op ops ih =>
    intro st u r hops h
    refine ih (stepOp st op) u r (fun o ho => hops o (List.mem_cons_of_mem _ ho)) ?_
    rcases stepOp_preserves_record st op u (hops op (List.mem_cons_self _ _)) with h' | h'
    · rw [h']; exact h
    · exact Or.inr h'

/-- Every path `extractall` writes extends the destination directory and
contains no `..`, `.` or empty component after it, so extraction stays
inside the extraction directory. -/
theorem extractTargets_within (dir : List String) (entries : List ZipEntry)
    (t : List String) (ht : t ∈ extractTargets dir entries) :
    ∃ rest, t = dir ++ rest ∧ ∀ c ∈ rest, c ≠ ".." ∧ c ≠ "." ∧ c ≠ "" := by
  rcases List.mem_map.mp ht with ⟨e, _, rfl⟩
  refine ⟨memberPathParts e.name, rfl, ?_⟩
  intro c hc
  have := (List.mem_filter.mp hc).2
  simp only [Bool.and_eq_true, bne_iff_ne, ne_eq] at this
  exact ⟨this.2, this.1.2, this.1.1⟩

/-! ## Claims -/

/-- C1: the spec requires an archive containing a path-traversal entry to be
rejected with `UnsafeArchiveEntry`; the source instead calls
`zipfile.extractall`, which sanitises entry names and extracts.  Evaluating
the embedded extraction at an archive holding the traversal entry
`../../etc/passwd` shows it is `extracted` (the entry written as
`etc/passwd` inside the extraction directory), not rejected. -/
theorem c1_traversal_archive_extracted_not_rejected :
    extractall ["vaults", "v1_extracted"] [⟨"../../etc/passwd"⟩, ⟨"notes/a.md"⟩] =
      .extracted [["vaults", "v1_extracted", "etc", "passwd"],
        ["vaults", "v1_extracted", "notes", "a.md"]] := by decide

/-- C2 (counterexample): a `process_vault` attempt that fails marks the
vault FAILED and schedules a celery retry; the retried attempt
unconditionally sets the same vault back to PROCESSING and, succeeding,
to COMPLETED — so a FAILED vault is later observed as COMPLETED under the
same identifier, refuting the claim as stated. -/
theorem c2_failed_vault_later_completed_counterexample :
    vaultStatus (runOps stFix [failAttempt]) 1 = some .failed ∧
    vaultStatus (runOps stFix [failAttempt, okAttempt]) 1 = some .completed := by
  decide

/-- C2 (amended): terminal statuses are stable under every core operation
that is an inline upload with a fresh identifier or a delete — such
operations never change an existing record's status (the record is either
preserved exactly or deleted).  The stability fails only for queued
`process_vault` attempts (a retry resets a FAILED vault to PROCESSING, see
the counterexample) and for direct `update_vault_status` calls, which
apply any requested status unconditionally. -/
theorem c2_status_preserved_by_fresh_inline_and_delete (st : SysState) (u : Nat)
    (s : VaultStatus) (ops : List CoreOp)
    (hops : ∀ op ∈ ops, InlineFreshOrDelete u op)
    (hs : vaultStatus st u = some s) :
    vaultStatus (runOps st ops) u = some s ∨ vaultStatus (runOps st ops) u = none := by
  obtain ⟨r, hr, hrs⟩ : ∃ r, findById st.db u = some r ∧ r.status = s := by
    rcases hmap : findById st.db u with _ | r
    · simp [vaultStatus, hmap] at hs
    · exact ⟨r, rfl, by simpa [vaultStatus, hmap] using hs⟩
  rcases runOps_preserves_record ops st u r hops (Or.inl hr) with h | h
  · left; simp [vaultStatus, h, hrs]
  · right; simp [vaultStatus, h]

/-- C2 (witness for the amended theorem): with a vault in UPLOADED state, a
trace of one delete of a different id leaves its status observable or the
record absent. -/
theorem c2_status_preserved_witness :
    vaultStatus (runOps stFix [CoreOp.deleteOp (uuidCanonical 2)]) 1 = some .uploaded ∨
    vaultStatus (runOps stFix [CoreOp.deleteOp (uuidCanonical 2)]) 1 = none :=
  c2_status_preserved_by_fresh_inline_and_delete stFix 1 .uploaded _
    (by intro op hop
        rcases List.mem_singleton.mp hop with rfl
        trivial)
    (by decide)

/-- C7: the classification loop sends every walked file to exactly one of
the three lists, by the priority order of the source: `.md` basenames are
notes; otherwise hidden basenames or `.obsidian`-containing paths are
configuration; everything else is an attachment — the three lists are the
corresponding filters of the input and their lengths sum to the input
length; and classification is a pure function, so reclassifying the same
tree yields identical lists. -/
theorem c7_classification_partitions_by_priority (paths : List String) :
    classifyFiles paths =
      (paths.filter (fun p => isNote p),
        paths.filter (fun p => !isNote p && isConfig p),
        paths.filter (fun p => !isNote p && !isConfig p)) ∧
    (classifyFiles paths).1.length + (classifyFiles paths).2.1.length +
        (classifyFiles paths).2.2.length = paths.length ∧
    classifyFiles paths = classifyFiles paths := by
  have hlen : (classifyFiles paths).1.length + (classifyFiles paths).2.1.length +
      (classifyFiles paths).2.2.length = paths.length := by
    induction paths with
    | nil => rfl
    | cons p rest ih =>
      cases hn : isNote p
      · cases hc : isConfig p
        · simp only [classifyFiles, hn, hc, Bool.false_eq_true, if_false, List.length_cons]
          omega
        · simp only [classifyFiles, hn, hc, Bool.false_eq_true, if_false, if_true,
            List.length_cons]
          omega
      · simp only [classifyFiles, hn, if_true, List.length_cons]
        omega
  have hpart : classifyFiles paths =
      (paths.filter (fun p => isNote p),
        paths.filter (fun p => !isNote p && isConfig p),
        paths.filter (fun p => !isNote p && !isConfig p)) := by
    clear hlen
    induction paths with
    | nil => rfl
    | cons p rest ih =>
      cases hn : isNote p
      · cases hc : isConfig p
        · simp [classifyFiles, List.filter_cons, hn, hc, ih]
        · simp [classifyFiles, List.filter_cons, hn, hc, ih]
      · simp [classifyFiles, List.filter_cons, hn, ih]
  exact ⟨hpart, hlen, rfl⟩

/-- C3: in the inline strategy, any exception raised by processing after
the Vault Record has been created is caught once: the record is transitioned
to FAILED with the exception's message stored as `error_message`, and the
failure is re-raised to the caller as
`ValueError("Failed to process vault: <message>")` — not swallowed. -/
theorem c3_inline_failure_marks_failed_and_reraises (storageRoot : String)
    (proc : Payload → Except PyError VaultFileInfo) (st : SysState)
    (file : UploadedFile) (name : String) (maxSize newId : Nat) (fn : String)
    (e : PyError) (hv : validate_vault_file file maxSize = .ok fn)
    (hz : is_valid_zip_content file.content = true)
    (hp : proc file.content = .error e) :
    (upload_and_process_vault storageRoot proc st file name maxSize newId).1 =
      .error (.valueError ("Failed to process vault: " ++ pyMsg e)) ∧
    vaultStatus (upload_and_process_vault storageRoot proc st file name maxSize newId).2
      newId = some .failed ∧
    vaultErrMsg (upload_and_process_vault storageRoot proc st file name maxSize newId).2
      newId = some (pyMsg e) := by
  unfold upload_and_process_vault
  simp only [hv, hz, hp, if_true]
  refine ⟨by trivial, ?_, ?_⟩
  · simp [vaultStatus, findById_updateById_self, findById_insertRecord_self,
      applyStatusUpdate]
  · simp [vaultErrMsg, findById_updateById_self, findById_insertRecord_self,
      applyStatusUpdate]

/-- C3 (witness): a concrete valid upload whose processing step raises
`OSError("boom")` yields the wrapped re-raise, a FAILED record and the
stored message. -/
theorem c3_inline_failure_witness :
    (upload_and_process_vault "vaults" (fun _ => .error (.osError "boom")) ⟨[], []⟩
        fileFix "Test Vault" 1000 7).1 =
      .error (.valueError "Failed to process vault: boom") ∧
    vaultStatus (upload_and_process_vault "vaults" (fun _ => .error (.osError "boom"))
        ⟨[], []⟩ fileFix "Test Vault" 1000 7).2 7 = some .failed ∧
    vaultErrMsg (upload_and_process_vault "vaults" (fun _ => .error (.osError "boom"))
        ⟨[], []⟩ fileFix "Test Vault" 1000 7).2 7 = some "boom" :=
  c3_inline_failure_marks_failed_and_reraises "vaults" _ _ _ _ _ _ "vault.zip"
    (.osError "boom") (by decide) (by decide) rfl

/-- C4: an upload whose payload fails validation — missing or non-`.zip`
filename, declared size over the maximum, bytes that are not a valid zip,
or a zip with no knowledge-base content — raises before any record is
created or any state is written: the whole system state is returned
unchanged. -/
theorem c4_validation_failure_creates_no_record (storageRoot : String)
    (proc : Payload → Except PyError VaultFileInfo) (st : SysState)
    (file : UploadedFile) (name : String) (maxSize newId : Nat)
    (h : (∃ e, validate_vault_file file maxSize = .error e) ∨
      is_valid_zip_content file.content = false) :
    (upload_and_process_vault storageRoot proc st file name maxSize newId).2 = st ∧
    ∃ e, (upload_and_process_vault storageRoot proc st file name maxSize newId).1 =
      .error e := by
  unfold upload_and_process_vault
  rcases h with ⟨e, hv⟩ | hz
  · simp [hv]
  · rcases hv : validate_vault_file file maxSize with e | fn
    · simp
    · simp [hz]

/-- C4 (witness): uploading a non-zip filename over an empty system leaves
the state empty and raises. -/
theorem c4_validation_failure_witness :
    (upload_and_process_vault "vaults" process_vault_files ⟨[], []⟩ fileTxt "T" 1000 3).2 =
      ⟨[], []⟩ ∧
    ∃ e, (upload_and_process_vault "vaults" process_vault_files ⟨[], []⟩ fileTxt
      "T" 1000 3).1 = .error e :=
  c4_validation_failure_creates_no_record "vaults" _ _ _ _ _ _
    (Or.inl ⟨.valueError "Only ZIP files are supported", by decide⟩)

/-- C5 (counterexample): the claim says a valid zip with no knowledge-base
content is rejected with a distinct `NotAKnowledgeBaseArchive` error,
distinguishable from the `CorruptArchive` of unopenable payloads; in the
source both cases flow through `_is_valid_zip_content` returning `False`
and raise one and the same
`ValueError("Invalid ZIP file format or missing Obsidian files")` — the two
rejections are equal, hence not distinguishable. -/
theorem c5_same_error_for_both_rejections_counterexample :
    (upload_and_process_vault "vaults" process_vault_files ⟨[], []⟩ fileNoKB
        "A" 1000 1).1 =
      (upload_and_process_vault "vaults" process_vault_files ⟨[], []⟩ fileCorrupt
        "B" 1000 2).1 ∧
    (upload_and_process_vault "vaults" process_vault_files ⟨[], []⟩ fileNoKB
        "A" 1000 1).1 =
      .error (.valueError "Invalid ZIP file format or missing Obsidian files") := by
  decide

/-- C5 (amended): a valid zip archive containing neither a `.md`-suffixed
entry nor an `.obsidian`-containing path is rejected before any state is
written, with `ValueError("Invalid ZIP file format or missing Obsidian
files")` — the same single error also used for payloads that are not valid
zip archives, so the two failure modes are not distinguishable by the
error. -/
theorem c5_no_knowledge_base_rejected_with_shared_error (storageRoot : String)
    (proc : Payload → Except PyError VaultFileInfo) (st : SysState)
    (file : UploadedFile) (name : String) (maxSize newId : Nat) (fn : String)
    (entries : List ZipEntry) (hv : validate_vault_file file maxSize = .ok fn)
    (hc : file.content = .zip entries)
    (hkb : entries.any
      (fun f => strEndsWith f.name ".md" || strContains f.name ".obsidian") = false) :
    (upload_and_process_vault storageRoot proc st file name maxSize newId).1 =
      .error (.valueError "Invalid ZIP file format or missing Obsidian files") ∧
    (upload_and_process_vault storageRoot proc st file name maxSize newId).2 = st := by
  have hz : is_valid_zip_content file.content = false := by
    rw [hc]
    simpa [is_valid_zip_content] using hkb
  unfold upload_and_process_vault
  rw [hv]
  simp [hz]

/-- C5 (witness for the amended theorem): the concrete attachment-only zip
upload is rejected with the shared error and writes nothing. -/
theorem c5_no_knowledge_base_witness :
    (upload_and_process_vault "vaults" process_vault_files ⟨[], []⟩ fileNoKB
        "A" 1000 1).1 =
      .error (.valueError "Invalid ZIP file format or missing Obsidian files") ∧
    (upload_and_process_vault "vaults" process_vault_files ⟨[], []⟩ fileNoKB
        "A" 1000 1).2 = ⟨[], []⟩ :=
  c5_no_knowledge_base_rejected_with_shared_error "vaults" _ _ _ _ _ _ "a.zip"
    [⟨"data/img.png"⟩] (by decide) (by decide) (by decide)

/-- C6 (counterexample): after a failed `process_vault` attempt and a
successful retry, the vault reads COMPLETED while `error_message` still
holds the earlier failure's message (it is never cleared) — refuting
"populated if and only if FAILED". -/
theorem c6_error_message_on_completed_counterexample :
    vaultStatus (runOps stFix [failAttempt, okAttempt]) 1 = some .completed ∧
    vaultErrMsg (runOps stFix [failAttempt, okAttempt]) 1 = some "disk I/O error" := by
  decide

/-- C6 (amended): `error_message` is written together with every transition
to FAILED and holds that failure's message, and it is never cleared; hence
along any trace of pipeline operations (inline uploads, queued attempts,
deletes) every FAILED record has `error_message` populated, and a failing
queued attempt stores exactly its exception's message — but the converse
direction of the claim fails: after a later successful retry a COMPLETED
record may retain the stale message (see the counterexample). -/
theorem c6_failed_records_carry_most_recent_message :
    (∀ (st : SysState) (ops : List CoreOp), (∀ op ∈ ops, PipelineOp op) →
      FailedHasMsg st.db → FailedHasMsg (runOps st ops).db) ∧
    (∀ (st : SysState) (vid : String) (u : Nat) (v : VaultRecord)
      (a : Except PyError Unit) (e : PyError), pyUUID vid = .ok u →
      findById st.db u = some v → attemptSteps st v a = .error e →
      findById (process_vault_attempt st vid a).db u =
        some { v with status := .failed, errorMessage := some (pyMsg e) }) := by
  constructor
  · exact fun st ops hops h => fhm_runOps ops st hops h
  · intro st vid u v a e hu hf ha
    unfold process_vault_attempt
    simp only [hu, hf, ha]
    rw [findById_modifyById_self, findById_modifyById_self, hf]
    rfl

/-- C6 (witness for the amended theorem): over the concrete fixture, a
trace of one failing attempt preserves the invariant, and the failing
attempt stores exactly its message. -/
theorem c6_failed_records_witness :
    FailedHasMsg (runOps stFix [failAttempt]).db ∧
    findById (process_vault_attempt stFix vidFix (.error (.osError "disk I/O error"))).db
        1 = some { recFix with status := .failed, errorMessage := some "disk I/O error" } :=
  ⟨c6_failed_records_carry_most_recent_message.1 stFix [failAttempt]
      (by intro op hop
          rcases List.mem_singleton.mp hop with rfl
          trivial)
      (by intro p hp hst
          simp [stFix] at hp
          rw [hp] at hst
          simp [recFix] at hst),
    c6_failed_records_carry_most_recent_message.2 stFix vidFix 1 recFix
      (.error (.osError "disk I/O error")) (.osError "disk I/O error")
      (by decide) (by decide) (by decide)⟩

/-- C8: after the pipeline completes successfully, `file_count` equals the
number of archive entries in the zip (`len(namelist())`, directory entries
included) and `processed_files` is set equal to `file_count` — in the
inline strategy (first conjunct) and in the queued strategy (second
conjunct). -/
theorem c8_file_count_is_entry_count_both_strategies :
    (∀ (storageRoot : String) (st : SysState) (file : UploadedFile) (name : String)
      (maxSize newId : Nat) (fn : String) (entries : List ZipEntry),
      validate_vault_file file maxSize = .ok fn →
      file.content = .zip entries →
      is_valid_zip_content file.content = true →
      (upload_and_process_vault storageRoot process_vault_files st file name maxSize
          newId).1 =
        .ok ⟨newId, name, .completed, "Vault uploaded and processed successfully"⟩ ∧
      vaultStatus (upload_and_process_vault storageRoot process_vault_files st file
        name maxSize newId).2 newId = some .completed ∧
      vaultFileCount (upload_and_process_vault storageRoot process_vault_files st file
        name maxSize newId).2 newId = some entries.length ∧
      vaultProcessed (upload_and_process_vault storageRoot process_vault_files st file
        name maxSize newId).2 newId = some entries.length) ∧
    (∀ (st : SysState) (vid : String) (u : Nat) (v : VaultRecord)
      (entries : List ZipEntry), pyUUID vid = .ok u → findById st.db u = some v →
      lookupStorage st.storage v.storagePath = .ok (.zip entries) →
      vaultStatus (process_vault_attempt st vid (.ok ())) u = some .completed ∧
      vaultFileCount (process_vault_attempt st vid (.ok ())) u = some entries.length ∧
      vaultProcessed (process_vault_attempt st vid (.ok ())) u = some entries.length) := by
  constructor
  · intro storageRoot st file name maxSize newId fn entries hv hc hz
    unfold upload_and_process_vault
    rw [hv, hc]
    simp only [hc] at hz
    simp only [hz, if_true, process_vault_files]
    refine ⟨by trivial, ?_, ?_, ?_⟩
    · simp [vaultStatus, findById_updateById_self, findById_insertRecord_self,
        applyStatusUpdate]
    · simp [vaultFileCount, findById_updateById_self, findById_insertRecord_self,
        applyStatusUpdate]
    · simp [vaultProcessed, findById_updateById_self, findById_insertRecord_self,
        applyStatusUpdate]
  · intro st vid u v entries hu hf hls
    have ha : attemptSteps st v (.ok ()) =
        .ok { file_count := (entries.map (fun e => e.name)).length
              markdown_files := (classifyFiles (walkFiles entries)).1
              config_files := (classifyFiles (walkFiles entries)).2.1
              attachment_files := (classifyFiles (walkFiles entries)).2.2 } := by
      simp only [attemptSteps, hls]
      rfl
    unfold process_vault_attempt
    simp only [hu, hf, ha]
    refine ⟨?_, ?_, ?_⟩
    · simp [vaultStatus, findById_modifyById_self, hf]
    · simp [vaultFileCount, findById_modifyById_self, hf]
    · simp [vaultProcessed, findById_modifyById_self, hf]

/-- C8 (witness): the concrete three-entry archive (one directory entry,
two files) yields `file_count = processed_files = 3` in both strategies. -/
theorem c8_file_count_witness :
    vaultFileCount (upload_and_process_vault "vaults" process_vault_files ⟨[], []⟩
        fileFix "Test Vault" 1000 7).2 7 = some 3 ∧
    vaultFileCount (process_vault_attempt stFix vidFix (.ok ())) 1 = some 3 :=
  ⟨(c8_file_count_is_entry_count_both_strategies.1 "vaults" ⟨[], []⟩ fileFix
      "Test Vault" 1000 7 "vault.zip" archiveFix (by decide) rfl (by decide)).2.2.1,
    (c8_file_count_is_entry_count_both_strategies.2 stFix vidFix 1 recFix archiveFix
      (by decide) (by decide) (by decide)).2.1⟩

/-- C9: the analyzer's aggregate content length is the sum of the character
counts of the successfully read notes (notes failing to read contribute 0
and do not fail the analysis — one title per read note), and the average
note length is the aggregate divided by the number of notes in the *input*
list, not the number successfully read; for an empty input list the average
is 0 with no division error. -/
theorem c9_analyzer_totals_and_average (files : List NoteFile) :
    (analyze_vault_content files).total_content_length =
      ((files.filterMap (fun n => n.content)).map String.length).sum ∧
    (analyze_vault_content files).note_titles.length =
      (files.filterMap (fun n => n.content)).length ∧
    (files = [] → (analyze_vault_content files).average_note_length = 0) ∧
    (files ≠ [] → (analyze_vault_content files).average_note_length =
      ((analyze_vault_content files).total_content_length : ℚ) / (files.length : ℚ)) := by
  have hacc : ∀ fs : List NoteFile,
      (analyzeNotes fs).1 = ((fs.filterMap (fun n => n.content)).map String.length).sum ∧
      (analyzeNotes fs).2.length = (fs.filterMap (fun n => n.content)).length := by
    intro fs
    induction fs with
    | nil => exact ⟨rfl, rfl⟩
    | cons n rest ih =>
      rcases hc : n.content with _ | c
      · simpa [analyzeNotes, hc, List.filterMap_cons] using ih
      · simp [analyzeNotes, hc, List.filterMap_cons, ih.1, ih.2]
  refine ⟨(hacc files).1, (hacc files).2, ?_, ?_⟩
  · rintro rfl
    rfl
  · intro h
    rcases files with _ | ⟨n, rest⟩
    · exact absurd rfl h
    · rfl

/-- C9 (witness): the concrete two-note input (one readable, one not) is
nonempty, so the average is the aggregate divided by 2 — the input length,
not the single successfully read note. -/
theorem c9_analyzer_witness :
    (analyze_vault_content notesFix).average_note_length =
      ((analyze_vault_content notesFix).total_content_length : ℚ) /
        (notesFix.length : ℚ) :=
  (c9_analyzer_totals_and_average notesFix).2.2.2 (by decide)

/-- C10: `get_vault`, `update_vault_status` and `delete_vault` pass the
given identifier to `UUID(...)` first, so a string that is not a
well-formed UUID raises the parsing error instead of returning the
not-found signal; the not-found signal (`None` / `False`) is returned
exactly for well-formed identifiers matching no record. -/
theorem c10_malformed_id_raises_not_notfound (st : SysState) (s : String)
    (status : VaultStatus) (em : Option String) (fc pf : Option Nat) :
    (∀ e, pyUUID s = .error e →
      get_vault st.db s = .error e ∧
      update_vault_status st.db s status em fc pf = .error e ∧
      delete_vault st s = .error e) ∧
    (∀ u, pyUUID s = .ok u → findById st.db u = none →
      get_vault st.db s = .ok none ∧
      update_vault_status st.db s status em fc pf = .ok (none, st.db) ∧
      delete_vault st s = .ok (false, st)) := by
  constructor
  · intro e he
    refine ⟨?_, ?_, ?_⟩ <;> simp [get_vault, update_vault_status, delete_vault, he]
  · intro u hu hf
    refine ⟨?_, ?_, ?_⟩ <;> simp [get_vault, update_vault_status, delete_vault, hu, hf]

/-- C10 (witness): `"not-a-uuid"` makes all three operations raise the
UUID parsing error, while the well-formed unmatched id `uuidCanonical 2`
yields the not-found signals over the one-vault fixture state. -/
theorem c10_malformed_id_witness :
    (get_vault stFix.db "not-a-uuid" =
        .error (.valueError "badly formed hexadecimal UUID string") ∧
      update_vault_status stFix.db "not-a-uuid" .completed none none none =
        .error (.valueError "badly formed hexadecimal UUID string") ∧
      delete_vault stFix "not-a-uuid" =
        .error (.valueError "badly formed hexadecimal UUID string")) ∧
    (get_vault stFix.db (uuidCanonical 2) = .ok none ∧
      update_vault_status stFix.db (uuidCanonical 2) .completed none none none =
        .ok (none, stFix.db) ∧
      delete_vault stFix (uuidCanonical 2) = .ok (false, stFix)) :=
  ⟨(c10_malformed_id_raises_not_notfound stFix "not-a-uuid" .completed none none none).1
      (.valueError "badly formed hexadecimal UUID string") (by decide),
    (c10_malformed_id_raises_not_notfound stFix (uuidCanonical 2) .completed none none
      none).2 2 (by decide) (by decide)⟩

end AutoSecondBrain
